import Mathlib

/-!
Verification development for the `lineage` game-chain library.

The library (src/block.rs) builds a tamper-evident record of a two-player
chess game as a chain of blocks: a `ChallengeBlock` naming the two players,
up to two `AcceptBlock`s (detached signatures over the challenge), and a list
of `MoveBlock`s, each signed over the entire serialized chain before it.

Bytes are modelled as `List Nat` (each entry a u8 value).  The external
collaborators — the Ed25519 signature primitive (src/crypto.rs, a thin
wrapper over the `ring` crate) and the chess rules oracle (the `chess`
crate) — are modelled as parameter structures `SigScheme` and `ChessOracle`;
executable toy instances are provided so concrete evaluations can run.
Rust panics (copy_from_slice length mismatches, the explicit panic in
`get_game`) are modelled by `Option`, with `none` standing for the panic.
-/

namespace Lineage

/-- Big-endian byte encoding of a natural in `w` bytes; models
`u32::to_be_bytes` / `u64::to_be_bytes` (with the value reduced mod `256^w`,
which is the identity on in-range values). -/
def toBeBytes : Nat → Nat → List Nat
  | 0, _ => []
  | w + 1, n => toBeBytes w (n / 256) ++ [n % 256]

/-- Big-endian byte decoding; models `u32::from_be_bytes` / `u64::from_be_bytes`. -/
def fromBeBytes (bs : List Nat) : Nat :=
  bs.foldl (fun acc b => acc * 256 + b) 0

theorem toBeBytes_length : ∀ (w n : Nat), (toBeBytes w n).length = w
  | 0, _ => rfl
  | w + 1, n => by
    simp [toBeBytes, toBeBytes_length w]

theorem fromBeBytes_toBeBytes : ∀ (w n : Nat), n < 256 ^ w →
    fromBeBytes (toBeBytes w n) = n
  | 0, n, h => by
    simp [toBeBytes, fromBeBytes]
    omega
  | w + 1, n, h => by
    have hdiv : n / 256 < 256 ^ w := by
      rw [Nat.div_lt_iff_lt_mul (by omega)]
      calc n < 256 ^ (w + 1) := h
        _ = 256 ^ w * 256 := by rw [Nat.pow_succ]
    have ih := fromBeBytes_toBeBytes w (n / 256) hdiv
    simp only [toBeBytes, fromBeBytes, List.foldl_append, List.foldl_cons, List.foldl_nil]
    simp only [fromBeBytes] at ih
    rw [ih]
    omega

/-- The genesis block of a game (struct `ChallengeBlock` in src/block.rs). -/
structure ChallengeBlock where
  version : Nat
  network_id : Nat
  id : Nat
  white_public_key : List Nat
  black_public_key : List Nat
  paired_game_id : Nat
  timestamp : Nat
deriving DecidableEq, Repr

/-- Field ranges guaranteed by the Rust types (`u8`, `u32`, `[u8; 32]`, `u64`). -/
def ChallengeBlock.Valid (c : ChallengeBlock) : Prop :=
  c.version < 256 ∧ c.network_id < 256 ∧ c.id < 256 ^ 4 ∧
  c.white_public_key.length = 32 ∧ c.black_public_key.length = 32 ∧
  c.paired_game_id < 256 ^ 4 ∧ c.timestamp < 256 ^ 8

/-- `ChallengeBlock::new`.  The two `copy_from_slice` calls panic unless each
caller-supplied key slice has exactly 32 bytes; the panic is modelled as
`none`.  All non-key fields are zero (id and timestamp generation are
deferred TODOs in the source). -/
def ChallengeBlock.new (white_public_key black_public_key : List Nat) :
    Option ChallengeBlock :=
  if white_public_key.length = 32 ∧ black_public_key.length = 32 then
    some { version := 0, network_id := 0, id := 0,
           white_public_key, black_public_key,
           paired_game_id := 0, timestamp := 0 }
  else
    none

/-- The field-reading body of `ChallengeBlock::from_bytes`, total on any
input; it is only ever used on inputs of at least 82 bytes, where it agrees
with the Rust slice reads exactly. -/
def ChallengeBlock.from_bytes_unchecked (bytes : List Nat) : ChallengeBlock :=
  { version := bytes.getD 0 0
    network_id := bytes.getD 1 0
    id := fromBeBytes ((bytes.drop 2).take 4)
    white_public_key := (bytes.drop 6).take 32
    black_public_key := (bytes.drop 38).take 32
    paired_game_id := fromBeBytes ((bytes.drop 70).take 4)
    timestamp := fromBeBytes ((bytes.drop 74).take 8) }

/-- `ChallengeBlock::from_bytes`.  The Rust function returns the block
directly and performs unchecked slicing plus `copy_from_slice`, so any input
shorter than 82 bytes panics; the panic is modelled as `none`. -/
def ChallengeBlock.from_bytes? (bytes : List Nat) : Option ChallengeBlock :=
  if 82 ≤ bytes.length then some (ChallengeBlock.from_bytes_unchecked bytes)
  else none

/-- `ChallengeBlock::as_bytes`: the fixed 82-byte big-endian layout
(version, network_id, id, white key, black key, paired_game_id, timestamp). -/
def ChallengeBlock.as_bytes (c : ChallengeBlock) : List Nat :=
  [c.version, c.network_id] ++ toBeBytes 4 c.id ++ c.white_public_key ++
    c.black_public_key ++ toBeBytes 4 c.paired_game_id ++ toBeBytes 8 c.timestamp

/-- The external signature capability (src/crypto.rs wraps `ring`; the
primitive itself is out of scope): key pairs, public-key extraction,
signing, and signature verification over byte strings. -/
structure SigScheme where
  KeyPair : Type
  pubkey : KeyPair → List Nat
  sign : KeyPair → List Nat → List Nat
  verify : List Nat → List Nat → List Nat → Bool

/-- A participant's detached signature over the challenge
(struct `AcceptBlock` in src/block.rs). -/
structure AcceptBlock where
  signature : List Nat
deriving DecidableEq, Repr

/-- `AcceptBlock::new`: sign the exact challenge encoding. -/
def AcceptBlock.new (S : SigScheme) (challenge : ChallengeBlock)
    (key_pair : S.KeyPair) : AcceptBlock :=
  { signature := S.sign key_pair challenge.as_bytes }

/-- `AcceptBlock::from_bytes`: take exactly 64 bytes, error if fewer remain. -/
def AcceptBlock.from_bytes (bytes : List Nat) : Except String AcceptBlock :=
  if bytes.length < 64 then
    Except.error "Not enough bytes to create accept block."
  else
    Except.ok { signature := bytes.take 64 }

/-- `AcceptBlock::as_bytes`. -/
def AcceptBlock.as_bytes (a : AcceptBlock) : List Nat :=
  a.signature

/-- One signed half-move (struct `MoveBlock` in src/block.rs). -/
structure MoveBlock where
  start_square : Nat
  end_square : Nat
  signature : List Nat
deriving DecidableEq, Repr

/-- `MoveBlock::as_bytes`: start square, end square, then the signature. -/
def MoveBlock.as_bytes (m : MoveBlock) : List Nat :=
  m.start_square :: m.end_square :: m.signature

/-- The side to move (enum `Color` of the chess crate). -/
inductive Color where
  | White : Color
  | Black : Color
deriving DecidableEq, Repr

/-- The color change after a half-move. -/
def Color.flip : Color → Color
  | Color.White => Color.Black
  | Color.Black => Color.White

/-- The external chess rules oracle (the `chess` crate; out of scope):
positions, moves, the legal move list, legality testing, move application,
side to move, and the 0–63 square coordinates of a move. -/
structure ChessOracle where
  Position : Type
  Move : Type
  initial : Position
  legal_moves : Position → List Move
  legal : Position → Move → Bool
  make_move : Position → Move → Position
  side_to_move : Position → Color
  source : Move → Nat
  dest : Move → Nat

/-- The `Action` enum of the chess crate, with the non-move variants
collapsed (the library rejects all of them with "Action not implemented"). -/
inductive Action (M : Type) where
  | MakeMove : M → Action M
  | OfferDraw : Action M
  | AcceptDraw : Action M
  | DeclareDraw : Action M
  | Resign : Action M

/-- The full game record (struct `GameChain` in src/block.rs): one
challenge, an ordered pair of accept slots, and the move list. -/
structure GameChain where
  challenge : ChallengeBlock
  accepts : Option AcceptBlock × Option AcceptBlock
  moves : List MoveBlock
deriving DecidableEq, Repr

/-- `GameChain::new`: a fresh chain has no accepts and no moves. -/
def GameChain.new (challenge : ChallengeBlock) : GameChain :=
  { challenge, accepts := (none, none), moves := [] }

/-- `GameChain::as_bytes`: challenge bytes, stopping early the moment an
accept slot is empty; with both accepts present, both signatures and then
every move record follow. -/
def GameChain.as_bytes (c : GameChain) : List Nat :=
  match c.accepts with
  | (none, _) => c.challenge.as_bytes
  | (some a0, none) => c.challenge.as_bytes ++ a0.as_bytes
  | (some a0, some a1) =>
    c.challenge.as_bytes ++ a0.as_bytes ++ a1.as_bytes ++
      (c.moves.map MoveBlock.as_bytes).flatten

/-- `GameChain::from_bytes`: reject fewer than 82 bytes, decode the
challenge, then greedily parse up to two 64-byte accept blocks; trailing
bytes (including any move records) are never parsed. -/
def GameChain.from_bytes (bytes : List Nat) : Except String GameChain :=
  if bytes.length < 82 then
    Except.error "Not enough bytes to create challenge block."
  else
    let challenge := ChallengeBlock.from_bytes_unchecked bytes
    let chain := GameChain.new challenge
    match AcceptBlock.from_bytes (bytes.drop 82) with
    | Except.error _ => Except.ok chain
    | Except.ok accept =>
      let chain := { chain with accepts := (some accept, chain.accepts.2) }
      match AcceptBlock.from_bytes (bytes.drop (82 + 64)) with
      | Except.error _ => Except.ok chain
      | Except.ok accept2 =>
        Except.ok { chain with accepts := (chain.accepts.1, some accept2) }

/-- The replay loop of `GameChain::get_game`: match each stored move's
coordinates against the legal moves of the current position and apply the
first match; a stored move with no match hits `panic!("Invalid game
chain!")`, modelled as `none`. -/
def getGameAux (O : ChessOracle) : O.Position → List MoveBlock → Option O.Position
  | game, [] => some game
  | game, move_block :: rest =>
    match (O.legal_moves game).find? (fun mv =>
        move_block.start_square == O.source mv &&
        move_block.end_square == O.dest mv) with
    | some mv => getGameAux O (O.make_move game mv) rest
    | none => none

/-- `GameChain::get_game`: replay all stored moves from the initial
position (`none` models the panic on an unmatched stored move). -/
def GameChain.get_game (O : ChessOracle) (c : GameChain) : Option O.Position :=
  getGameAux O O.initial c.moves

/-- `GameChain::accept`.  Mirrors the mutable-receiver Rust method as a
state transformer: the returned chain is the post-call state (the slot
normalization in step 2 happens even on the duplicate-key error path), and
the returned `Option String` is `some msg` exactly on the `Err` paths. -/
def GameChain.accept (S : SigScheme) (c : GameChain) (key_pair : S.KeyPair) :
    GameChain × Option String :=
  let public_key_bytes := S.pubkey key_pair
  if public_key_bytes ≠ c.challenge.white_public_key ∧
      public_key_bytes ≠ c.challenge.black_public_key then
    (c, some "This key is not in the challenge block.")
  else
    let c :=
      match c.accepts with
      | (none, some a) => { c with accepts := (some a, none) }
      | _ => c
    match c.accepts with
    | (none, a1) =>
      ({ c with accepts := (some (AcceptBlock.new S c.challenge key_pair), a1) }, none)
    | (some a0, none) =>
      if S.verify public_key_bytes c.challenge.as_bytes a0.signature then
        (c, some "This key is already present in the chain.")
      else
        ({ c with accepts := (some a0, some (AcceptBlock.new S c.challenge key_pair)) },
          none)
    | (some a0, some a1) =>
      ({ c with accepts := (some a0, some a1) },
        some "There are already two signatures on this chain.")

/-- `GameChain::make_move_block`.  The outer `Option` models the panic that
`get_game` can raise before any check runs; `some (chain, err?)` is the
normal return, with the post-call chain state and `some msg` on the `Err`
paths. -/
def GameChain.make_move_block (S : SigScheme) (O : ChessOracle) (c : GameChain)
    (key_pair : S.KeyPair) (action : Action O.Move) :
    Option (GameChain × Option String) :=
  match c.get_game O with
  | none => none
  | some game =>
    let public_key_to_move :=
      match O.side_to_move game with
      | Color.White => c.challenge.white_public_key
      | Color.Black => c.challenge.black_public_key
    if public_key_to_move ≠ S.pubkey key_pair then
      some (c, some "This key cannot sign the current move.")
    else
      match action with
      | Action.MakeMove mv =>
        let start_square := O.source mv
        let end_square := O.dest mv
        if !(O.legal game mv) then
          some (c, some "Invalid move.")
        else
          let chain_bytes := c.as_bytes ++ [start_square, end_square]
          let signature := S.sign key_pair chain_bytes
          some ({ c with moves := c.moves ++ [{ start_square, end_square, signature }] },
            none)
      | _ => some (c, some "Action not implemented")

/-- The move-replay loop of `GameChain::verify`: starting from the chain
with its move list cleared and the key pair (white, black), check each
move's signature over the serialized chain-so-far plus the move's
coordinates, push the move, and swap the keys. -/
def GameChain.verifyLoop (S : SigScheme) (k0 k1 : List Nat) :
    GameChain → List MoveBlock → Bool
  | _, [] => true
  | chain, move_block :: rest =>
    let bytes := chain.as_bytes ++ [move_block.start_square, move_block.end_square]
    S.verify k0 bytes move_block.signature &&
      GameChain.verifyLoop S k1 k0
        { chain with moves := chain.moves ++ [move_block] } rest

/-- `GameChain::verify`: false without both accepts; then the two accept
signatures must validate against the two challenge keys under either
assignment; then every move signature is replayed with alternating keys
starting at white. -/
def GameChain.verify (S : SigScheme) (c : GameChain) : Bool :=
  match c.accepts with
  | (some a0, some a1) =>
    if !((S.verify c.challenge.white_public_key c.challenge.as_bytes a0.signature &&
          S.verify c.challenge.black_public_key c.challenge.as_bytes a1.signature) ||
         (S.verify c.challenge.white_public_key c.challenge.as_bytes a1.signature &&
          S.verify c.challenge.black_public_key c.challenge.as_bytes a0.signature)) then
      false
    else
      GameChain.verifyLoop S c.challenge.white_public_key c.challenge.black_public_key
        { c with moves := [] } c.moves
  | _ => false

/-- A 32-byte public key whose last byte identifies the holder; used by the
executable toy signature scheme. -/
def natKeyBytes (k : Nat) : List Nat :=
  List.replicate 31 0 ++ [k]

/-- An executable toy signature scheme used to instantiate the abstract
capability in concrete evaluations: the key pair is a `Nat`, a signature is
the signer's number followed by the message, and verification recomputes
exactly that. -/
def toySig : SigScheme where
  KeyPair := Nat
  pubkey := natKeyBytes
  sign := fun k m => k :: m
  verify := fun pk m s => decide (pk = natKeyBytes (s.headD 0) ∧ s = s.headD 0 :: m)

/-- An executable toy rules oracle used to instantiate the abstract chess
oracle in concrete evaluations: the position is just the side to move, and
the single legal move is always (12, 28). -/
def toyOracle : ChessOracle where
  Position := Color
  Move := Nat × Nat
  initial := Color.White
  legal_moves := fun _ => [(12, 28)]
  legal := fun _ mv => decide (mv = (12, 28))
  make_move := fun p _ => p.flip
  side_to_move := fun p => p
  source := fun mv => mv.1
  dest := fun mv => mv.2

/-- A concrete challenge between toy players 1 (white) and 2 (black). -/
def cexChallenge : ChallengeBlock :=
  { version := 0, network_id := 0, id := 0,
    white_public_key := natKeyBytes 1, black_public_key := natKeyBytes 2,
    paired_game_id := 0, timestamp := 0 }

/-- A concrete first accept block (64 opaque signature bytes). -/
def cexA0 : AcceptBlock := { signature := List.replicate 64 3 }

/-- A concrete second accept block (64 opaque signature bytes). -/
def cexA1 : AcceptBlock := { signature := List.replicate 64 4 }

/-- A concrete chain with both accepts and one stored move (12, 28). -/
def cexChain : GameChain :=
  { challenge := cexChallenge,
    accepts := (some cexA0, some cexA1),
    moves := [{ start_square := 12, end_square := 28,
                signature := List.replicate 64 5 }] }

/-- The exact byte payload signed when the toy key 2 appends the move
(12, 28) to `cexChain`: the serialization of every earlier block (challenge,
both accepts, the one prior move) followed by the two coordinate bytes. -/
def cexPayload : List Nat :=
  cexChallenge.as_bytes ++ cexA0.signature ++ cexA1.signature ++
    (cexChain.moves.map MoveBlock.as_bytes).flatten ++ [12, 28]

/-- The chain obtained by appending the toy move (12, 28), signed by toy
key 2 over `cexPayload`, to `cexChain`. -/
def cexAppended : GameChain :=
  { cexChain with
    moves := cexChain.moves ++
      [{ start_square := 12, end_square := 28,
         signature := toySig.sign ((2 : Nat) : toySig.KeyPair) cexPayload }] }

theorem drop_len_add {α : Type} (xs ys : List α) (n m : Nat) (h : xs.length = n) :
    (xs ++ ys).drop (n + m) = ys.drop m := by
  subst h
  exact List.drop_append m

theorem challenge_as_bytes_length (c : ChallengeBlock) (h : c.Valid) :
    c.as_bytes.length = 82 := by
  obtain ⟨-, -, -, hw, hb, -, -⟩ := h
  simp [ChallengeBlock.as_bytes, toBeBytes_length, hw, hb]

theorem challenge_from_bytes_unchecked_as_bytes (c : ChallengeBlock) (h : c.Valid) :
    ChallengeBlock.from_bytes_unchecked c.as_bytes = c := by
  obtain ⟨v, n, i, wk, bk, pg, ts⟩ := c
  obtain ⟨-, -, h3, hw, hb, h6, h7⟩ := h
  simp only [ChallengeBlock.Valid] at h3 h6 h7 hw hb
  have hrest : ChallengeBlock.as_bytes ⟨v, n, i, wk, bk, pg, ts⟩ =
      v :: n :: (toBeBytes 4 i ++ (wk ++ (bk ++ (toBeBytes 4 pg ++ toBeBytes 8 ts)))) := by
    simp [ChallengeBlock.as_bytes]
  rw [ChallengeBlock.from_bytes_unchecked, hrest]
  have d2 : (v :: n :: (toBeBytes 4 i ++ (wk ++ (bk ++ (toBeBytes 4 pg ++ toBeBytes 8 ts))))).drop 2
      = toBeBytes 4 i ++ (wk ++ (bk ++ (toBeBytes 4 pg ++ toBeBytes 8 ts))) := rfl
  have d6 : (v :: n :: (toBeBytes 4 i ++ (wk ++ (bk ++ (toBeBytes 4 pg ++ toBeBytes 8 ts))))).drop 6
      = wk ++ (bk ++ (toBeBytes 4 pg ++ toBeBytes 8 ts)) := by
    show (toBeBytes 4 i ++ (wk ++ (bk ++ (toBeBytes 4 pg ++ toBeBytes 8 ts)))).drop 4
        = wk ++ (bk ++ (toBeBytes 4 pg ++ toBeBytes 8 ts))
    exact List.drop_left' (toBeBytes_length 4 i)
  have d38 : (v :: n :: (toBeBytes 4 i ++ (wk ++ (bk ++ (toBeBytes 4 pg ++ toBeBytes 8 ts))))).drop 38
      = bk ++ (toBeBytes 4 pg ++ toBeBytes 8 ts) := by
    show (toBeBytes 4 i ++ (wk ++ (bk ++ (toBeBytes 4 pg ++ toBeBytes 8 ts)))).drop 36
        = bk ++ (toBeBytes 4 pg ++ toBeBytes 8 ts)
    rw [show (36 : Nat) = 4 + 32 from rfl,
      drop_len_add _ _ 4 32 (toBeBytes_length 4 i)]
    exact List.drop_left' hw
  have d70 : (v :: n :: (toBeBytes 4 i ++ (wk ++ (bk ++ (toBeBytes 4 pg ++ toBeBytes 8 ts))))).drop 70
      = toBeBytes 4 pg ++ toBeBytes 8 ts := by
    show (toBeBytes 4 i ++ (wk ++ (bk ++ (toBeBytes 4 pg ++ toBeBytes 8 ts)))).drop 68
        = toBeBytes 4 pg ++ toBeBytes 8 ts
    rw [show (68 : Nat) = 4 + 64 from rfl,
      drop_len_add _ _ 4 64 (toBeBytes_length 4 i),
      show (64 : Nat) = 32 + 32 from rfl,
      drop_len_add _ _ 32 32 hw]
    exact List.drop_left' hb
  have d74 : (v :: n :: (toBeBytes 4 i ++ (wk ++ (bk ++ (toBeBytes 4 pg ++ toBeBytes 8 ts))))).drop 74
      = toBeBytes 8 ts := by
    show (toBeBytes 4 i ++ (wk ++ (bk ++ (toBeBytes 4 pg ++ toBeBytes 8 ts)))).drop 72
        = toBeBytes 8 ts
    rw [show (72 : Nat) = 4 + 68 from rfl,
      drop_len_add _ _ 4 68 (toBeBytes_length 4 i),
      show (68 : Nat) = 32 + 36 from rfl,
      drop_len_add _ _ 32 36 hw,
      show (36 : Nat) = 32 + 4 from rfl,
      drop_len_add _ _ 32 4 hb]
    exact List.drop_left' (toBeBytes_length 4 pg)
  simp only [ChallengeBlock.mk.injEq, d2, d6, d38, d70, d74]
  refine ⟨rfl, rfl, ?_, ?_, ?_, ?_, ?_⟩
  · rw [List.take_left' (toBeBytes_length 4 i), fromBeBytes_toBeBytes 4 i h3]
  · exact List.take_left' hw
  · exact List.take_left' hb
  · rw [List.take_left' (toBeBytes_length 4 pg), fromBeBytes_toBeBytes 4 pg h6]
  · rw [List.take_of_length_le (by rw [toBeBytes_length]), fromBeBytes_toBeBytes 8 ts h7]

theorem challenge_from_bytes_as_bytes (c : ChallengeBlock) (h : c.Valid) :
    ChallengeBlock.from_bytes? c.as_bytes = some c := by
  rw [ChallengeBlock.from_bytes?, if_pos (by rw [challenge_as_bytes_length c h]),
    challenge_from_bytes_unchecked_as_bytes c h]

/-- Claim C4: with zero or one accept slot filled, `verify` returns false,
whatever the challenge contents or move list. -/
theorem verify_false_without_both_accepts (S : SigScheme) (c : GameChain)
    (h : c.accepts.1 = none ∨ c.accepts.2 = none) :
    GameChain.verify S c = false := by
  obtain ⟨chal, ⟨a0, a1⟩, mvs⟩ := c
  cases a0 <;> cases a1 <;> simp_all [GameChain.verify]

/-- Claim C4 witness: a fresh chain has no accepts and fails `verify`. -/
theorem verify_false_without_both_accepts_witness :
    GameChain.verify toySig (GameChain.new cexChallenge) = false :=
  verify_false_without_both_accepts toySig (GameChain.new cexChallenge) (Or.inl rfl)

/-- Claim C9: `ChallengeBlock::new` panics (modelled `none`) unless both key
slices have exactly 32 bytes; under that precondition it returns the block
with all other fields zero and the keys stored verbatim. -/
theorem challenge_new_key_length_precondition (w b : List Nat) :
    (w.length = 32 → b.length = 32 →
      ChallengeBlock.new w b =
        some { version := 0, network_id := 0, id := 0,
               white_public_key := w, black_public_key := b,
               paired_game_id := 0, timestamp := 0 }) ∧
    (¬(w.length = 32 ∧ b.length = 32) → ChallengeBlock.new w b = none) := by
  constructor
  · intro hw hb
    simp [ChallengeBlock.new, hw, hb]
  · intro h
    simp [ChallengeBlock.new, h]

/-- Claim C9 witness: 32-byte keys construct the zeroed block; empty keys
panic. -/
theorem challenge_new_key_length_precondition_witness :
    ChallengeBlock.new (List.replicate 32 1) (List.replicate 32 2) =
      some { version := 0, network_id := 0, id := 0,
             white_public_key := List.replicate 32 1,
             black_public_key := List.replicate 32 2,
             paired_game_id := 0, timestamp := 0 } ∧
    ChallengeBlock.new [] [] = none :=
  ⟨(challenge_new_key_length_precondition (List.replicate 32 1) (List.replicate 32 2)).1
      (by decide) (by decide),
   (challenge_new_key_length_precondition [] []).2 (by decide)⟩

/-- Claim C8: the Rust `ChallengeBlock::from_bytes` performs no size check
and panics (modelled `none`) on an 81-byte input instead of returning the
recoverable TruncatedInput error the spec requires; any input of at least
82 bytes decodes successfully. -/
theorem challenge_from_bytes_short_input_panics :
    ChallengeBlock.from_bytes? (List.replicate 81 0) = none ∧
    (ChallengeBlock.from_bytes? (List.replicate 82 7)).isSome = true := by
  exact ⟨rfl, rfl⟩

/-- Claim C7: when a stored move matches no legal move of the current
position, `get_game` hits `panic!("Invalid game chain!")` (modelled `none`),
terminating the host process instead of raising the recoverable
internal-consistency error the spec requires. -/
theorem get_game_panics_on_unmatched_stored_move :
    GameChain.get_game toyOracle
      { challenge := cexChallenge, accepts := (some cexA0, some cexA1),
        moves := [{ start_square := 0, end_square := 0,
                    signature := List.replicate 64 9 }] } = none := rfl

set_option maxRecDepth 8000 in
/-- Claim C1: decoding an encoded chain silently drops the move history:
on a chain with both accepts and one move, `from_bytes (as_bytes c)`
returns the chain with an empty move list, so the round trip fails for
non-empty move histories (the challenge itself round-trips). -/
theorem chain_decode_drops_move_history :
    GameChain.from_bytes (GameChain.as_bytes cexChain) =
      Except.ok { cexChain with moves := [] } ∧
    ({ cexChain with moves := [] } : GameChain) ≠ cexChain ∧
    ChallengeBlock.from_bytes? (ChallengeBlock.as_bytes cexChallenge) = some cexChallenge := by
  refine ⟨rfl, by decide, rfl⟩

set_option maxRecDepth 4000 in
/-- Claim C10: `GameChain::from_bytes` validates nothing beyond length:
any input of at least 82 bytes decodes successfully, with zero, one, or two
accepts according to how many complete 64-byte groups follow the 82-byte
header and an always-empty move list; only inputs shorter than 82 bytes
produce an error. -/
theorem chain_from_bytes_length_only (bytes : List Nat) :
    (bytes.length < 82 →
      GameChain.from_bytes bytes =
        Except.error "Not enough bytes to create challenge block.") ∧
    (82 ≤ bytes.length → bytes.length < 146 →
      GameChain.from_bytes bytes =
        Except.ok { challenge := ChallengeBlock.from_bytes_unchecked bytes,
                    accepts := (none, none), moves := [] }) ∧
    (146 ≤ bytes.length → bytes.length < 210 →
      GameChain.from_bytes bytes =
        Except.ok { challenge := ChallengeBlock.from_bytes_unchecked bytes,
                    accepts := (some { signature := (bytes.drop 82).take 64 }, none),
                    moves := [] }) ∧
    (210 ≤ bytes.length →
      GameChain.from_bytes bytes =
        Except.ok { challenge := ChallengeBlock.from_bytes_unchecked bytes,
                    accepts := (some { signature := (bytes.drop 82).take 64 },
                                some { signature := (bytes.drop (82 + 64)).take 64 }),
                    moves := [] }) := by
  refine ⟨?_, ?_, ?_, ?_⟩
  · intro h
    simp only [GameChain.from_bytes]
    rw [if_pos h]
  · intro h1 h2
    simp only [GameChain.from_bytes, AcceptBlock.from_bytes, List.length_drop, GameChain.new]
    rw [if_neg (by omega), if_pos (show bytes.length - 82 < 64 by omega)]
  · intro h1 h2
    simp only [GameChain.from_bytes, AcceptBlock.from_bytes, List.length_drop, GameChain.new]
    rw [if_neg (by omega), if_neg (show ¬bytes.length - 82 < 64 by omega),
      if_pos (show bytes.length - (82 + 64) < 64 by omega)]
  · intro h1
    simp only [GameChain.from_bytes, AcceptBlock.from_bytes, List.length_drop, GameChain.new]
    rw [if_neg (by omega), if_neg (show ¬bytes.length - 82 < 64 by omega),
      if_neg (show ¬bytes.length - (82 + 64) < 64 by omega)]

/-- Claim C10 witness: 100 arbitrary bytes decode into a chain with no
accepts and no moves. -/
theorem chain_from_bytes_length_only_witness :
    GameChain.from_bytes (List.replicate 100 0) =
      Except.ok { challenge := ChallengeBlock.from_bytes_unchecked (List.replicate 100 0),
                  accepts := (none, none), moves := [] } :=
  (chain_from_bytes_length_only (List.replicate 100 0)).2.1 (by decide) (by decide)

/-- Claim C5: after an accept by key `k` succeeded with the second slot
still empty, a second accept with the same key fails with the
duplicate-key error (detected by verifying slot 0's stored signature under
`k`'s public key over the challenge bytes), and the accept slots are
unchanged by the failing call. -/
theorem accept_same_key_twice_fails (S : SigScheme) (c : GameChain) (k : S.KeyPair)
    (hok : (GameChain.accept S c k).2 = none)
    (hslot : (GameChain.accept S c k).1.accepts.2 = none)
    (hsig : S.verify (S.pubkey k) c.challenge.as_bytes
      (S.sign k c.challenge.as_bytes) = true) :
    (GameChain.accept S (GameChain.accept S c k).1 k).2 =
      some "This key is already present in the chain." ∧
    (GameChain.accept S (GameChain.accept S c k).1 k).1.accepts =
      (GameChain.accept S c k).1.accepts := by
  obtain ⟨chal, ⟨a0, a1⟩, mvs⟩ := c
  by_cases hkey : S.pubkey k ≠ chal.white_public_key ∧ S.pubkey k ≠ chal.black_public_key
  · simp [GameChain.accept, hkey] at hok
  · cases a0 with
    | none =>
      cases a1 with
      | none =>
        simp only [GameChain.accept, if_neg hkey, AcceptBlock.new] at hsig hslot ⊢
        simp_all
      | some a =>
        by_cases hdup : S.verify (S.pubkey k) chal.as_bytes a.signature
        · simp [GameChain.accept, hkey, hdup] at hok
        · simp [GameChain.accept, hkey, hdup] at hslot
    | some a0 =>
      cases a1 with
      | none =>
        by_cases hdup : S.verify (S.pubkey k) chal.as_bytes a0.signature
        · simp [GameChain.accept, hkey, hdup] at hok
        · simp [GameChain.accept, hkey, hdup] at hslot
      | some a1 =>
        simp [GameChain.accept, hkey] at hok

/-- Claim C5 witness: key 1 accepts a fresh chain, then a second accept by
key 1 fails with the duplicate-key error. -/
theorem accept_same_key_twice_fails_witness :
    (GameChain.accept toySig
      (GameChain.accept toySig (GameChain.new cexChallenge) ((1 : Nat) : toySig.KeyPair)).1
      ((1 : Nat) : toySig.KeyPair)).2 =
      some "This key is already present in the chain." :=
  (accept_same_key_twice_fails toySig (GameChain.new cexChallenge)
    ((1 : Nat) : toySig.KeyPair) (by decide) (by decide) (by decide)).1

theorem if_not_eq_and (x y : Bool) : (if (!x) = true then false else y) = (x && y) := by
  cases x <;> simp

theorem verify_eq_of_both_accepts (S : SigScheme) (c : GameChain) (a0 a1 : AcceptBlock)
    (h : c.accepts = (some a0, some a1)) :
    GameChain.verify S c =
      (((S.verify c.challenge.white_public_key c.challenge.as_bytes a0.signature &&
         S.verify c.challenge.black_public_key c.challenge.as_bytes a1.signature) ||
        (S.verify c.challenge.white_public_key c.challenge.as_bytes a1.signature &&
         S.verify c.challenge.black_public_key c.challenge.as_bytes a0.signature)) &&
       GameChain.verifyLoop S c.challenge.white_public_key c.challenge.black_public_key
         { c with moves := [] } c.moves) := by
  simp only [GameChain.verify.eq_def, h]
  rw [if_not_eq_and]

/-- Claim C3: with both accept slots filled, `verify` reduces to the
either-assignment accept check (slot0=white/slot1=black or the swap)
conjoined with the move replay; and on a fresh chain whose challenge names
the two keys, accepting in either order succeeds and yields a chain with
`verify = true`.  The signature-scheme hypotheses say that each key's
signature over the challenge bytes validates under its own public key and
not under the other's. -/
theorem verify_accept_either_assignment (S : SigScheme) (c : GameChain)
    (a0 a1 : AcceptBlock) (chal : ChallengeBlock) (w b : S.KeyPair)
    (hacc : c.accepts = (some a0, some a1))
    (hw : S.pubkey w = chal.white_public_key)
    (hb : S.pubkey b = chal.black_public_key)
    (hCW : S.verify chal.white_public_key chal.as_bytes (S.sign w chal.as_bytes) = true)
    (hCB : S.verify chal.black_public_key chal.as_bytes (S.sign b chal.as_bytes) = true)
    (hBW : S.verify chal.black_public_key chal.as_bytes (S.sign w chal.as_bytes) = false)
    (hWB : S.verify chal.white_public_key chal.as_bytes (S.sign b chal.as_bytes) = false) :
    (GameChain.verify S c =
      (((S.verify c.challenge.white_public_key c.challenge.as_bytes a0.signature &&
         S.verify c.challenge.black_public_key c.challenge.as_bytes a1.signature) ||
        (S.verify c.challenge.white_public_key c.challenge.as_bytes a1.signature &&
         S.verify c.challenge.black_public_key c.challenge.as_bytes a0.signature)) &&
       GameChain.verifyLoop S c.challenge.white_public_key c.challenge.black_public_key
         { c with moves := [] } c.moves)) ∧
    (GameChain.accept S (GameChain.new chal) w).2 = none ∧
    (GameChain.accept S (GameChain.accept S (GameChain.new chal) w).1 b).2 = none ∧
    GameChain.verify S
      (GameChain.accept S (GameChain.accept S (GameChain.new chal) w).1 b).1 = true ∧
    (GameChain.accept S (GameChain.new chal) b).2 = none ∧
    (GameChain.accept S (GameChain.accept S (GameChain.new chal) b).1 w).2 = none ∧
    GameChain.verify S
      (GameChain.accept S (GameChain.accept S (GameChain.new chal) b).1 w).1 = true := by
  refine ⟨verify_eq_of_both_accepts S c a0 a1 hacc, ?_⟩
  · simp [GameChain.accept, GameChain.new, AcceptBlock.new, GameChain.verify,
      GameChain.verifyLoop, hw, hb, hCW, hCB, hBW, hWB]

/-- Claim C3 witness: toy white key 1 then black key 2 both accept and the
resulting chain verifies. -/
theorem verify_accept_either_assignment_witness :
    GameChain.verify toySig
      (GameChain.accept toySig
        (GameChain.accept toySig (GameChain.new cexChallenge) ((1 : Nat) : toySig.KeyPair)).1
        ((2 : Nat) : toySig.KeyPair)).1 = true :=
  (verify_accept_either_assignment toySig cexChain cexA0 cexA1 cexChallenge
    ((1 : Nat) : toySig.KeyPair) ((2 : Nat) : toySig.KeyPair) rfl (by decide) (by decide)
    (by decide) (by decide) (by decide) (by decide)).2.2.2.1

theorem Color.flip_flip (c : Color) : c.flip.flip = c := by
  cases c <;> rfl

theorem getGameAux_side_to_move (O : ChessOracle)
    (hFlip : ∀ (p : O.Position) (m : O.Move),
      O.side_to_move (O.make_move p m) = (O.side_to_move p).flip) :
    ∀ (ms : List MoveBlock) (g g' : O.Position), getGameAux O g ms = some g' →
      O.side_to_move g' =
        if ms.length % 2 = 0 then O.side_to_move g else (O.side_to_move g).flip
  | [], g, g', h => by
    simp only [getGameAux, Option.some.injEq] at h
    subst h
    simp
  | mb :: ms, g, g', h => by
    simp only [getGameAux] at h
    cases hf : (O.legal_moves g).find? (fun mv =>
        mb.start_square == O.source mv && mb.end_square == O.dest mv) with
    | none =>
      rw [hf] at h
      exact absurd h (by simp)
    | some mv =>
      rw [hf] at h
      have ih := getGameAux_side_to_move O hFlip ms (O.make_move g mv) g' h
      rw [ih, hFlip, List.length_cons]
      rcases Nat.mod_two_eq_zero_or_one ms.length with h2 | h2
      · rw [if_pos h2, if_neg (by omega)]
      · rw [if_neg (by omega), if_pos (by omega), Color.flip_flip]

/-- Claim C6: with the replay of the stored moves succeeding,
`make_move_block` fails with the wrong-signer error when the signing key's
public key differs from the challenge key of the color to move (white when
the stored move count is even, black when odd), and fails with the
invalid-move error when the signer is right but the move is illegal in the
projected position; in both cases the chain is returned unchanged, so no
move block is appended.  The oracle hypotheses state that white moves
first and that each applied move flips the side to move. -/
theorem make_move_block_failure_modes (S : SigScheme) (O : ChessOracle)
    (c : GameChain) (k : S.KeyPair) (mv : O.Move) (g : O.Position)
    (hInit : O.side_to_move O.initial = Color.White)
    (hFlip : ∀ (p : O.Position) (m : O.Move),
      O.side_to_move (O.make_move p m) = (O.side_to_move p).flip)
    (hg : GameChain.get_game O c = some g) :
    (S.pubkey k ≠ (if c.moves.length % 2 = 0 then c.challenge.white_public_key
        else c.challenge.black_public_key) →
      GameChain.make_move_block S O c k (Action.MakeMove mv) =
        some (c, some "This key cannot sign the current move.")) ∧
    (S.pubkey k = (if c.moves.length % 2 = 0 then c.challenge.white_public_key
        else c.challenge.black_public_key) →
      O.legal g mv = false →
      GameChain.make_move_block S O c k (Action.MakeMove mv) =
        some (c, some "Invalid move.")) := by
  have hside : O.side_to_move g =
      if c.moves.length % 2 = 0 then Color.White else Color.Black := by
    have hs := getGameAux_side_to_move O hFlip c.moves O.initial g hg
    rw [hs, hInit]
    rcases Nat.mod_two_eq_zero_or_one c.moves.length with h2 | h2 <;> simp [h2, Color.flip]
  constructor
  · intro hne
    rcases Nat.mod_two_eq_zero_or_one c.moves.length with h2 | h2
    · rw [if_pos h2] at hne
      have hsw : O.side_to_move g = Color.White := by rw [hside, if_pos h2]
      simp only [GameChain.make_move_block, hg, hsw]
      rw [if_pos (Ne.symm hne)]
    · rw [if_neg (by omega)] at hne
      have hsb : O.side_to_move g = Color.Black := by rw [hside, if_neg (by omega)]
      simp only [GameChain.make_move_block, hg, hsb]
      rw [if_pos (Ne.symm hne)]
  · intro heq hleg
    rcases Nat.mod_two_eq_zero_or_one c.moves.length with h2 | h2
    · rw [if_pos h2] at heq
      have hsw : O.side_to_move g = Color.White := by rw [hside, if_pos h2]
      simp only [GameChain.make_move_block, hg, hsw]
      rw [if_neg (by simp [heq])]
      simp [hleg]
    · rw [if_neg (by omega)] at heq
      have hsb : O.side_to_move g = Color.Black := by rw [hside, if_neg (by omega)]
      simp only [GameChain.make_move_block, hg, hsb]
      rw [if_neg (by simp [heq])]
      simp [hleg]

/-- Claim C6 witness: on a fresh chain (white to move), the black toy key 2
is rejected with the wrong-signer error and the chain is unchanged. -/
theorem make_move_block_failure_modes_witness :
    GameChain.make_move_block toySig toyOracle (GameChain.new cexChallenge)
      ((2 : Nat) : toySig.KeyPair) (Action.MakeMove ((12, 28) : toyOracle.Move)) =
      some (GameChain.new cexChallenge, some "This key cannot sign the current move.") :=
  (make_move_block_failure_modes toySig toyOracle (GameChain.new cexChallenge)
    ((2 : Nat) : toySig.KeyPair) ((12, 28) : toyOracle.Move) Color.White rfl
    (fun _ _ => rfl) rfl).1 (by decide)

theorem chain_as_bytes_both (c : GameChain) (a0 a1 : AcceptBlock)
    (h : c.accepts = (some a0, some a1)) :
    c.as_bytes = c.challenge.as_bytes ++ a0.signature ++ a1.signature ++
      (c.moves.map MoveBlock.as_bytes).flatten := by
  obtain ⟨chal, ⟨x0, x1⟩, mvs⟩ := c
  have h' : (x0, x1) = (some a0, some a1) := h
  injection h' with e0 e1
  subst e0
  subst e1
  simp [GameChain.as_bytes, AcceptBlock.as_bytes]

theorem verifyLoop_append (S : SigScheme) (mb : MoveBlock) :
    ∀ (ms : List MoveBlock) (k0 k1 : List Nat) (c : GameChain),
      GameChain.verifyLoop S k0 k1 c (ms ++ [mb]) =
        (GameChain.verifyLoop S k0 k1 c ms &&
         S.verify (if ms.length % 2 = 0 then k0 else k1)
           (({ c with moves := c.moves ++ ms } : GameChain).as_bytes ++
             [mb.start_square, mb.end_square])
           mb.signature)
  | [], k0, k1, c => by
    simp [GameChain.verifyLoop]
  | m :: ms, k0, k1, c => by
    have ih := verifyLoop_append S mb ms k1 k0 { c with moves := c.moves ++ [m] }
    simp only [List.cons_append, GameChain.verifyLoop, List.append_eq]
    rw [ih]
    have hkey : (if ms.length % 2 = 0 then k1 else k0) =
        (if (m :: ms).length % 2 = 0 then k0 else k1) := by
      rw [List.length_cons]
      rcases Nat.mod_two_eq_zero_or_one ms.length with h2 | h2
      · rw [if_pos h2, if_neg (by omega)]
      · rw [if_neg (by omega), if_pos (by omega)]
    rw [← Bool.and_assoc, ← hkey]
    simp [List.append_assoc]

/-- Claim C2: on a chain with both accepts, every successfully appended
move block carries a signature by the signing key over the concatenation of
the serialization of every earlier block (challenge, both accepts, all
prior moves) followed by the move's two coordinate bytes — the move's own
signature excluded; and `verify` of the extended chain recomputes exactly
that payload for the new move (checked against the alternating key: white
when the prior move count is even, black when odd), on top of `verify` of
the original chain. -/
theorem make_move_signs_entire_prior_chain (S : SigScheme) (O : ChessOracle)
    (c c2 : GameChain) (k : S.KeyPair) (a0 a1 : AcceptBlock) (act : Action O.Move)
    (hacc : c.accepts = (some a0, some a1))
    (hsucc : GameChain.make_move_block S O c k act = some (c2, none)) :
    ∃ mv, act = Action.MakeMove mv ∧
      c2 = { c with moves := c.moves ++
        [{ start_square := O.source mv, end_square := O.dest mv,
           signature := S.sign k (c.challenge.as_bytes ++ a0.signature ++ a1.signature ++
             (c.moves.map MoveBlock.as_bytes).flatten ++ [O.source mv, O.dest mv]) }] } ∧
      GameChain.verify S c2 =
        (GameChain.verify S c &&
         S.verify (if c.moves.length % 2 = 0 then c.challenge.white_public_key
             else c.challenge.black_public_key)
           (c.challenge.as_bytes ++ a0.signature ++ a1.signature ++
             (c.moves.map MoveBlock.as_bytes).flatten ++ [O.source mv, O.dest mv])
           (S.sign k (c.challenge.as_bytes ++ a0.signature ++ a1.signature ++
             (c.moves.map MoveBlock.as_bytes).flatten ++ [O.source mv, O.dest mv]))) := by
  obtain ⟨chal, accs, mvs⟩ := c
  have haccs : accs = (some a0, some a1) := hacc
  subst haccs
  rcases hg : GameChain.get_game O (⟨chal, (some a0, some a1), mvs⟩ : GameChain)
    with _ | game
  · simp only [GameChain.make_move_block, hg] at hsucc
    exact absurd hsucc (by simp)
  · cases hside : O.side_to_move game with
    | White =>
      simp only [GameChain.make_move_block, hg, hside] at hsucc
      by_cases hpk : chal.white_public_key ≠ S.pubkey k
      · rw [if_pos hpk] at hsucc
        exact absurd hsucc (by simp)
      · rw [if_neg hpk] at hsucc
        cases act with
        | MakeMove mv =>
          simp only [] at hsucc
          by_cases hleg : O.legal game mv
          · rw [if_neg (by simp [hleg])] at hsucc
            simp only [Option.some.injEq, Prod.mk.injEq, and_true] at hsucc
            subst hsucc
            refine ⟨mv, rfl, ?_, ?_⟩
            · rw [chain_as_bytes_both _ a0 a1 rfl]
            · rw [verify_eq_of_both_accepts S _ a0 a1 rfl,
                verify_eq_of_both_accepts S _ a0 a1 rfl,
                verifyLoop_append S _ mvs chal.white_public_key chal.black_public_key]
              simp only [List.nil_append]
              rw [chain_as_bytes_both _ a0 a1 rfl, Bool.and_assoc]
          · rw [if_pos (by simp [hleg])] at hsucc
            exact absurd hsucc (by simp)
        | OfferDraw => simp at hsucc
        | AcceptDraw => simp at hsucc
        | DeclareDraw => simp at hsucc
        | Resign => simp at hsucc
    | Black =>
      simp only [GameChain.make_move_block, hg, hside] at hsucc
      by_cases hpk : chal.black_public_key ≠ S.pubkey k
      · rw [if_pos hpk] at hsucc
        exact absurd hsucc (by simp)
      · rw [if_neg hpk] at hsucc
        cases act with
        | MakeMove mv =>
          simp only [] at hsucc
          by_cases hleg : O.legal game mv
          · rw [if_neg (by simp [hleg])] at hsucc
            simp only [Option.some.injEq, Prod.mk.injEq, and_true] at hsucc
            subst hsucc
            refine ⟨mv, rfl, ?_, ?_⟩
            · rw [chain_as_bytes_both _ a0 a1 rfl]
            · rw [verify_eq_of_both_accepts S _ a0 a1 rfl,
                verify_eq_of_both_accepts S _ a0 a1 rfl,
                verifyLoop_append S _ mvs chal.white_public_key chal.black_public_key]
              simp only [List.nil_append]
              rw [chain_as_bytes_both _ a0 a1 rfl, Bool.and_assoc]
          · rw [if_pos (by simp [hleg])] at hsucc
            exact absurd hsucc (by simp)
        | OfferDraw => simp at hsucc
        | AcceptDraw => simp at hsucc
        | DeclareDraw => simp at hsucc
        | Resign => simp at hsucc

set_option maxRecDepth 40000 in
/-- Claim C2 witness: toy key 2 appends (12, 28) to the concrete chain,
producing exactly the block signed over `cexPayload`, and `verify` of the
extended chain recomputes that payload for the new move. -/
theorem make_move_signs_entire_prior_chain_witness :
    GameChain.verify toySig cexAppended =
      (GameChain.verify toySig cexChain &&
       toySig.verify cexChain.challenge.black_public_key cexPayload
         (toySig.sign ((2 : Nat) : toySig.KeyPair) cexPayload)) := by
  obtain ⟨mv, hact, -, hver⟩ :=
    make_move_signs_entire_prior_chain toySig toyOracle cexChain cexAppended
      ((2 : Nat) : toySig.KeyPair) cexA0 cexA1
      (Action.MakeMove ((12, 28) : toyOracle.Move)) rfl (by decide)
  have hmv : mv = ((12, 28) : toyOracle.Move) := by
    injection hact with h
    exact h.symm
  subst hmv
  exact hver


end Lineage
